import Mathlib

/-!
Verification of the RealtimeTTS FastAPI example pipeline
(`example_fast_api/server.py`, `example_fast_api/async_server.py`,
`example_fast_api/client.py`).

Shallow embedding conventions:
* An audio chunk is a list of bytes, bytes being natural numbers
  (`List Nat`); the byte values themselves are opaque payload.
* The `queue.Queue` holding audio data is modelled as the finite list of
  every item ever put into it, in put order; the end-of-stream sentinel
  `None` is `Option.none`, a chunk `c` is `Option.some c`.
* `threading.Semaphore(n)` is a counter of permits; `acquire(blocking=False)`
  and `release()` are pure functions on that counter.  The semaphore's
  operations are atomic, so any concurrent history linearises to a
  sequence of these operations.
* The external TTS engine (`stream.feed` / `stream.play`) is a black box;
  its possible behaviours during one job are modelled by `PlayOutcome`:
  it either produces a list of chunks and returns normally, or produces
  some chunks and then raises.
-/

namespace RealtimeTTS

/-- A chunk of audio bytes. -/
abbrev Chunk := List Nat

/-! ## SingleFlightGate: `threading.Semaphore(1)` with non-blocking acquire

`play_text_to_speech_semaphore = threading.Semaphore(1)` in both server
variants.  `acquire(blocking=False)` returns `True` and decrements the
counter when a permit is available, otherwise returns `False` at once,
leaving the counter untouched and queueing nothing. -/

/-- Model of `semaphore.acquire(blocking=False)`: returns whether the
acquisition succeeded, together with the new permit count. -/
def tryAcquire (permits : Nat) : Bool × Nat :=
  if 0 < permits then (true, permits - 1) else (false, permits)

/-- Model of `semaphore.release()`: increments the permit count. -/
def release (permits : Nat) : Nat := permits + 1

/-- Run `n` consecutive non-blocking acquisition attempts against the
semaphore, collecting each attempt's result.  Since the semaphore is
atomic, any concurrent burst of attempts (with no interleaved release)
linearises to such a run. -/
def runAttempts (permits : Nat) : Nat → List Bool
  | 0 => []
  | n + 1 =>
    let r := tryAcquire permits
    r.1 :: runAttempts r.2 n

/-- Number of successful acquisitions in a list of attempt results. -/
def countTrue (l : List Bool) : Nat := l.count true

/-! ## SynthesisJob: `play_text_to_speech` in `server.py` (lines 212-247)

```python
def play_text_to_speech(stream, text, audio_queue):
    set_speaking(text, True)
    def on_audio_chunk(chunk):
        audio_queue.put(chunk)
    try:
        stream.feed(text)
        stream.play(on_audio_chunk=on_audio_chunk, muted=True)
        audio_queue.put(None)
    finally:
        set_speaking(text, False)
        play_text_to_speech_semaphore.release()
```

The engine call `stream.feed` / `stream.play` is external; one job's
interaction with it is one `PlayOutcome`. -/

/-- Behaviour of the external engine during one job: it pushes a list of
chunks through the `on_audio_chunk` callback and then either returns
normally or raises an exception. -/
inductive PlayOutcome where
  | success (chunks : List Chunk)
  | failure (chunksBeforeError : List Chunk)
deriving DecidableEq

/-- Observable result of one run of the worker body: the items put into
`audio_queue` in order, the final `speaking` flag for the text, whether
the semaphore was released, and whether the exception propagated out. -/
structure JobResult where
  queueItems : List (Option Chunk)
  speakingAtEnd : Bool
  semaphoreReleased : Bool
  raised : Bool
deriving DecidableEq

/-- The `server.py` worker `play_text_to_speech`: on success the chunks are put,
then the sentinel `None` (inside the `try`); the `finally` block clears
the speaking flag and releases the semaphore in both cases.  On failure
the `put(None)` line is never reached. -/
def play_text_to_speech : PlayOutcome → JobResult
  | .success cs => ⟨cs.map some ++ [none], false, true, false⟩
  | .failure cs => ⟨cs.map some, false, true, true⟩

/-! ## `/tts` endpoint of `server.py` (lines 342-363)

```python
@app.get("/tts")
def tts(request, text):
    browser_request = is_browser_request(request)
    audio_queue = Queue()
    if play_text_to_speech_semaphore.acquire(blocking=False):
        threading.Thread(target=play_text_to_speech, ...).start()
    else:
        raise HTTPException(status_code=503, detail=..., headers={"Retry-After": "10"})
    return StreamingResponse(audio_chunk_generator(audio_queue, browser_request),
        media_type="audio/wav" if current_engine.engine_name != "elevenlabs" else "audio/mpeg")
```
-/

/-- Outcome of a `/tts` request: either a streaming response with the
given media type, or an HTTP error with a status code and the value of
its `Retry-After` header. -/
inductive TtsResponse where
  | streaming (mediaType : String)
  | busyError (status : Nat) (retryAfter : String)
deriving DecidableEq

/-- The `server.py` `tts` endpoint.  Returns the response, the semaphore
count right after the handler's own semaphore operations, and whether a
synthesis worker thread was started for this request. -/
def tts (permits : Nat) (engineName : String) (browserRequest : Bool) :
    TtsResponse × Nat × Bool :=
  let r := tryAcquire permits
  if r.1 then
    (.streaming (if engineName == "elevenlabs" then "audio/mpeg" else "audio/wav"),
      r.2, true)
  else
    (.busyError 503 "10", r.2, false)

/-! ## `/tts` endpoint of `async_server.py` (lines 275-297)

```python
@app.get("/tts")
async def tts(request, text):
    with tts_lock:
        request_handler = TTSRequestHandler(current_engine)
        browser_request = is_browser_request(request)
        if play_text_to_speech_semaphore.acquire(blocking=False):
            try:
                threading.Thread(target=request_handler.play_text_to_speech,
                                 args=(text,), daemon=True).start()
            finally:
                play_text_to_speech_semaphore.release()
        return StreamingResponse(request_handler.audio_chunk_generator(browser_request),
                                 media_type="audio/wav")
```

The engine name is never consulted: the media type is always
`"audio/wav"`, and when the gate is busy the handler silently returns a
stream with no worker behind it. -/

/-- The `async_server.py` `tts` endpoint: response, semaphore count after
the handler's acquire/release pair, and whether a worker was started. -/
def async_tts (permits : Nat) (browserRequest : Bool) :
    TtsResponse × Nat × Bool :=
  let r := tryAcquire permits
  let p2 := if r.1 then release r.2 else r.2
  (.streaming "audio/wav", p2, r.1)

/-! ## StreamFramer: `create_wave_header_for_engine` (both servers)

```python
def create_wave_header_for_engine(engine):
    _, _, sample_rate = engine.get_stream_info()
    num_channels = 1
    sample_width = 2
    frame_rate = sample_rate
    wav_header = io.BytesIO()
    with wave.open(wav_header, "wb") as wav_file:
        wav_file.setnchannels(num_channels)
        wav_file.setsampwidth(sample_width)
        wav_file.setframerate(frame_rate)
    ...
```

The first two components of `get_stream_info()` are discarded; the
header's channel count and sample width are the constants 1 and 2.  The
header is modelled by its declared fields. -/

/-- Stream metadata reported by `engine.get_stream_info()`. -/
structure StreamInfo where
  channels : Nat
  sampleWidth : Nat
  sampleRate : Nat
deriving DecidableEq

/-- Declared fields of the produced WAV header. -/
structure WavHeader where
  numChannels : Nat
  sampleWidth : Nat
  frameRate : Nat
deriving DecidableEq

/-- Model of `create_wave_header_for_engine`: keeps only the engine's sample
rate and hardcodes mono, 2-byte samples. -/
def create_wave_header_for_engine (info : StreamInfo) : WavHeader :=
  ⟨1, 2, info.sampleRate⟩

/-! ## ChunkChannel → HTTP bridge: the audio chunk generators

`server.py` lines 309-329:

```python
def audio_chunk_generator(audio_queue, send_wave_headers):
    with gen_lock:
        first_chunk = False
        try:
            while True:
                chunk = audio_queue.get()
                if chunk is None:
                    break
                if not first_chunk:
                    if (send_wave_headers
                            and not current_engine.engine_name == "elevenlabs"):
                        yield create_wave_header_for_engine(current_engine)
                    first_chunk = True
                yield chunk
        except Exception as e:
            logging.error(...)
```

`async_server.py` `TTSRequestHandler.audio_chunk_generator` (lines
146-164) is the identical loop except that the header condition is
`send_wave_headers` alone, with no engine-name check.  Both are
instances of `genLoop` below, applied to their respective header
conditions.  An exhausted queue means `get()` blocks; the model then
yields nothing further. -/

/-- An item yielded by a generator: a WAV header or an audio chunk. -/
inductive StreamItem where
  | header (h : WavHeader)
  | audio (c : Chunk)
deriving DecidableEq

/-- Common body of both generators.  `firstDone` is the Python
`first_chunk` flag; `cond` is the header-emission condition; iteration
stops at the first sentinel. -/
def genLoop (cond : Bool) (hdr : WavHeader) : Bool → List (Option Chunk) → List StreamItem
  | _, [] => []
  | _, none :: _ => []
  | firstDone, some c :: rest =>
    (if firstDone then [] else if cond then [.header hdr] else []) ++
      .audio c :: genLoop cond hdr true rest

/-- The `server.py` `audio_chunk_generator`: header condition is
`send_wave_headers and not current_engine.engine_name == "elevenlabs"`. -/
def audio_chunk_generator (queue : List (Option Chunk)) (sendWaveHeaders : Bool)
    (engineName : String) (info : StreamInfo) : List StreamItem :=
  genLoop (sendWaveHeaders && !(engineName == "elevenlabs"))
    (create_wave_header_for_engine info) false queue

/-- The `async_server.py` `TTSRequestHandler.audio_chunk_generator`:
header condition is `send_wave_headers` alone. -/
def handler_audio_chunk_generator (queue : List (Option Chunk))
    (sendWaveHeaders : Bool) (info : StreamInfo) : List StreamItem :=
  genLoop sendWaveHeaders (create_wave_header_for_engine info) false queue

/-- Select the chunk of an audio item. -/
def itemChunk : StreamItem → Option Chunk
  | .audio c => some c
  | .header _ => none

/-- Select the header of a header item. -/
def itemHeader : StreamItem → Option WavHeader
  | .audio _ => none
  | .header h => some h

/-- The audio chunks of a generator output, in order, headers dropped. -/
def audioItems (l : List StreamItem) : List Chunk := l.filterMap itemChunk

/-- The headers of a generator output, in order. -/
def headerItems (l : List StreamItem) : List WavHeader := l.filterMap itemHeader

/-! ## Event traces for permit-release ordering (claim about `finally`)

Abstract events of one `/tts` request.  For `server.py` the release is
executed by the worker itself, in the `finally` of
`play_text_to_speech`.  For `async_server.py` the handler acquires,
starts the worker thread, and releases in a `finally` wrapped around
`Thread(...).start()` alone (lines 284-292); the worker's synthesis
runs concurrently. -/

/-- Abstract events of a `/tts` request's execution. -/
inductive Ev where
  | acquireOk
  | threadStart
  | releasePermit
  | feedText
  | synthDone
  | synthRaised
  | putSentinel
deriving DecidableEq

/-- Event order of the `server.py` worker body
(`play_text_to_speech`): synthesis, then on success the sentinel, and
in the `finally` the release — always last. -/
def syncWorkerEvents : PlayOutcome → List Ev
  | .success _ => [.feedText, .synthDone, .putSentinel, .releasePermit]
  | .failure _ => [.feedText, .synthRaised, .releasePermit]

/-- Event order of the `async_server.py` `tts` handler when the gate is
free: acquire, start the worker thread, release (in the `finally`
around `start()`).  No synthesis event occurs in the handler itself. -/
def asyncHandlerEvents : List Ev := [.acquireOk, .threadStart, .releasePermit]

/-- Event order of the `async_server.py` worker
(`TTSRequestHandler.play_text_to_speech` plus the library callbacks):
feed, synthesis completes, `on_audio_stream_stop` puts the sentinel. -/
def asyncWorkerEvents : List Ev := [.feedText, .synthDone, .putSentinel]

/-- Predicate `isInterleave t a b`: `t` is an interleaving of the two sequences
`a` and `b`, each kept in order. -/
def isInterleave : List Ev → List Ev → List Ev → Bool
  | [], a, b => a.isEmpty && b.isEmpty
  | x :: xs, a, b =>
    (match a with
     | y :: ys => x == y && isInterleave xs ys b
     | [] => false) ||
    (match b with
     | z :: zs => x == z && isInterleave xs a zs
     | [] => false)

/-- Predicate `occursBefore a b t`: the first occurrence of `a` in `t` is
followed (strictly later) by an occurrence of `b`. -/
def occursBefore (a b : Ev) : List Ev → Bool
  | [] => false
  | x :: xs => if x == a then xs.contains b else occursBefore a b xs

/-- A trace is a legal execution of the async `/tts` request when it
interleaves the handler's and the worker's event sequences and every
worker event happens after the handler's `Thread(...).start()`. -/
def legalAsyncTrace (t : List Ev) : Bool :=
  isInterleave t asyncHandlerEvents asyncWorkerEvents &&
    occursBefore .threadStart .feedText t

/-! ## ClientPlaybackBuffer: `play_audio` in `client.py` (lines 93-142)

```python
def play_audio():
    buffer = b""
    frame_size = pyaudio_instance.get_sample_size(AUDIO_FORMAT) * CHANNELS  # = 2
    min_buffer_size = 1024 * 6                                             # = 6144
    while len(buffer) < min_buffer_size:       # priming
        chunk = chunk_queue.get()
        if chunk is None:
            break
        buffer += chunk
    while True:                                # steady state
        if len(buffer) >= frame_size:
            num_frames = len(buffer) // frame_size
            bytes_to_write = num_frames * frame_size
            stream.write(buffer[:bytes_to_write])
            buffer = buffer[bytes_to_write:]
        else:
            chunk = chunk_queue.get()
            if chunk is None:                  # flush and stop
                if len(buffer) > 0:
                    if len(buffer) % frame_size != 0:
                        buffer = buffer[:-(len(buffer) % frame_size)]
                    stream.write(buffer)
                break
            buffer += chunk
```

The model is run against the finite list of every item ever put into
`chunk_queue`; a `get()` on an exhausted list is a `get()` that blocks
forever, reported as `PlayEnd.blocked`.  In the steady-state loop, one
write of the largest frame-aligned prefix always leaves a buffer
shorter than one frame (for a positive frame size), so each model step
performs at most one write and then one `get()`, exactly as the Python
loop alternates. -/

/-- How a run of `play_audio` ends: `terminated` is the `break` after
the sentinel; `blocked` is a `get()` on a queue that never receives
another item. -/
inductive PlayEnd where
  | terminated
  | blocked
deriving DecidableEq

/-- The priming loop: accumulate chunks until the buffer reaches
`minB`, breaking early on the sentinel (which is thereby consumed).
Returns the buffer and the unread rest of the queue, or `none` when the
queue is exhausted with the loop still waiting on `get()`. -/
def priming (minB : Nat) : Chunk → List (Option Chunk) → Option (Chunk × List (Option Chunk))
  | buf, [] => if minB ≤ buf.length then some (buf, []) else none
  | buf, none :: rest =>
    if minB ≤ buf.length then some (buf, none :: rest) else some (buf, rest)
  | buf, some c :: rest =>
    if minB ≤ buf.length then some (buf, some c :: rest)
    else priming minB (buf ++ c) rest

/-- The steady-state/drain loop: write the largest frame-aligned
prefix whenever at least one frame is buffered, otherwise `get()`; on
the sentinel, truncate the remainder down to a frame multiple and flush
it.  Returns the list of writes handed to `stream.write` and how the
loop ended. -/
def mainLoop (frame : Nat) : Chunk → List (Option Chunk) → List Chunk × PlayEnd
  | buf, q =>
    let aligned := buf.length - buf.length % frame
    let ws := if frame ≤ buf.length then [buf.take aligned] else []
    let rem := if frame ≤ buf.length then buf.drop aligned else buf
    match q with
    | [] => (ws, .blocked)
    | none :: _ =>
      (ws ++ (if rem.length ≠ 0 then [rem.take (rem.length - rem.length % frame)] else []),
        .terminated)
    | some c :: rest =>
      let r := mainLoop frame (rem ++ c) rest
      (ws ++ r.1, r.2)

/-- The `client.py` `play_audio` loop, parameterised by the frame size and the
minimum priming buffer (2 and 6144 in the source). -/
def play_audio (frame minB : Nat) (q : List (Option Chunk)) : List Chunk × PlayEnd :=
  match priming minB [] q with
  | none => ([], .blocked)
  | some r => mainLoop frame r.1 r.2

/-- Total length of a list of chunks. -/
def sumLen (l : List Chunk) : Nat := (l.map List.length).sum

/-- Bytes sitting in the queue before its first sentinel. -/
def pendingBytes : List (Option Chunk) → Nat
  | [] => 0
  | none :: _ => 0
  | some c :: rest => c.length + pendingBytes rest

/-! ## Helper lemmas -/

/-- A run of non-blocking acquisitions cannot succeed more often than
there are permits. -/
theorem countTrue_runAttempts_le (n : Nat) : ∀ p : Nat, countTrue (runAttempts p n) ≤ p := by
  induction n with
  | zero => intro p; simp [runAttempts, countTrue]
  | succ n ih =>
    intro p
    by_cases hp : 0 < p
    · have h1 := ih (p - 1)
      simp only [countTrue] at h1 ⊢
      simp [runAttempts, tryAcquire, hp, List.count_cons]
      omega
    · have hp0 : p = 0 := by omega
      subst hp0
      have h1 := ih 0
      simp only [countTrue] at h1 ⊢
      simp [runAttempts, tryAcquire, List.count_cons]
      omega

/-- Once past the first chunk, the generator copies the remaining
chunks verbatim until the sentinel. -/
theorem genLoop_after_first (cond : Bool) (hdr : WavHeader) (chunks : List Chunk) :
    genLoop cond hdr true (chunks.map some ++ [none]) = chunks.map StreamItem.audio := by
  induction chunks with
  | nil => simp [genLoop]
  | cons c cs ih => simp [genLoop, ih]

/-- The generator output on a queue of chunks followed by the sentinel:
an optional header, then the chunks. -/
theorem genLoop_spec (cond : Bool) (hdr : WavHeader) (chunks : List Chunk) :
    genLoop cond hdr false (chunks.map some ++ [none]) =
      (if cond ∧ chunks ≠ [] then [StreamItem.header hdr] else []) ++
        chunks.map StreamItem.audio := by
  cases chunks with
  | nil => cases cond <;> simp [genLoop]
  | cons c cs => cases cond <;> simp [genLoop, genLoop_after_first]

/-- The generator never reads past the first sentinel. -/
theorem genLoop_stops (cond : Bool) (hdr : WavHeader) (chunks : List Chunk)
    (junk : List (Option Chunk)) :
    ∀ fd : Bool, genLoop cond hdr fd (chunks.map some ++ none :: junk) =
      genLoop cond hdr fd (chunks.map some ++ [none]) := by
  induction chunks with
  | nil => intro fd; simp [genLoop]
  | cons c cs ih => intro fd; simp [genLoop, ih]

/-- Audio items of a mapped chunk list. -/
theorem audioItems_map (chunks : List Chunk) :
    audioItems (chunks.map StreamItem.audio) = chunks := by
  induction chunks with
  | nil => simp [audioItems]
  | cons c cs ih =>
    simp only [audioItems, List.map_cons, List.filterMap_cons] at ih ⊢
    simp [itemChunk, ih]

/-- A pure audio stream carries no header. -/
theorem headerItems_map_audio (l : List Chunk) :
    headerItems (l.map StreamItem.audio) = [] := by
  induction l with
  | nil => rfl
  | cons c cs ih => simp [headerItems, itemHeader, ih]

/-- With the header condition off, no header is ever produced. -/
theorem headerItems_genLoop_false (hdr : WavHeader) :
    ∀ (q : List (Option Chunk)) (fd : Bool),
      headerItems (genLoop false hdr fd q) = [] := by
  intro q
  induction q with
  | nil => intro fd; simp [genLoop, headerItems]
  | cons o rest ih =>
    intro fd
    cases o with
    | none => simp [genLoop, headerItems]
    | some c =>
      simp only [genLoop, headerItems, List.filterMap_append, List.filterMap_cons]
      have := ih true
      simp only [headerItems] at this
      cases fd <;> simp [itemHeader, this]

/-- Total length distributes over appended write lists. -/
theorem sumLen_append (a b : List Chunk) : sumLen (a ++ b) = sumLen a + sumLen b := by
  simp [sumLen]

/-- The largest frame-aligned byte count is a multiple of the frame. -/
theorem dvd_aligned (frame len : Nat) : frame ∣ (len - len % frame) := by
  refine ⟨len / frame, ?_⟩
  have := Nat.mod_add_div len frame
  omega

/-- Running `mainLoop` on an exhausted queue with at least one frame buffered:
one aligned write, then the `get()` blocks. -/
theorem mainLoop_nil_ge (frame : Nat) (buf : Chunk) (h : frame ≤ buf.length) :
    mainLoop frame buf [] =
      ([buf.take (buf.length - buf.length % frame)], .blocked) := by
  simp [mainLoop, h]

/-- Running `mainLoop` on an exhausted queue with less than a frame buffered:
no write, the `get()` blocks. -/
theorem mainLoop_nil_lt (frame : Nat) (buf : Chunk) (h : buf.length < frame) :
    mainLoop frame buf [] = ([], .blocked) := by
  have : ¬ frame ≤ buf.length := by omega
  simp [mainLoop, this]

/-- After writing the largest aligned block, fewer bytes than one frame
remain buffered. -/
theorem length_drop_aligned (frame : Nat) (buf : Chunk) :
    (buf.drop (buf.length - buf.length % frame)).length = buf.length % frame := by
  rw [List.length_drop]
  have := Nat.mod_le buf.length frame
  omega

/-- The truncated flush of a remainder shorter than one frame is empty. -/
theorem flush_take_zero (frame : Nat) (hf : 0 < frame) (rem : Chunk)
    (h : rem.length < frame) :
    rem.take (rem.length - rem.length % frame) = [] := by
  have : rem.length % frame = rem.length := Nat.mod_eq_of_lt h
  simp [this]

/-- Running `mainLoop` at the sentinel with at least one frame buffered: the
aligned write, then the flush (an empty write when the remainder is
nonempty, since the remainder is below one frame). -/
theorem mainLoop_sentinel_ge (frame : Nat) (hf : 0 < frame) (buf : Chunk)
    (rest : List (Option Chunk)) (h : frame ≤ buf.length) :
    mainLoop frame buf (none :: rest) =
      (buf.take (buf.length - buf.length % frame) ::
        (if buf.length % frame ≠ 0 then [([] : Chunk)] else []), .terminated) := by
  have hrem := length_drop_aligned frame buf
  have hlt : (buf.drop (buf.length - buf.length % frame)).length < frame := by
    rw [hrem]; exact Nat.mod_lt _ hf
  have hflush := flush_take_zero frame hf _ hlt
  simp only [mainLoop, h, if_pos, hrem, hflush]
  by_cases hz : buf.length % frame ≠ 0 <;> simp [h, hz, hrem, hflush]

/-- Running `mainLoop` at the sentinel with less than a frame buffered: only
the flush (an empty write when the buffer is nonempty). -/
theorem mainLoop_sentinel_lt (frame : Nat) (hf : 0 < frame) (buf : Chunk)
    (rest : List (Option Chunk)) (h : buf.length < frame) :
    mainLoop frame buf (none :: rest) =
      ((if buf.length ≠ 0 then [([] : Chunk)] else []), .terminated) := by
  have hne : ¬ frame ≤ buf.length := by omega
  have hflush := flush_take_zero frame hf buf h
  by_cases hz : buf.length ≠ 0 <;> simp [mainLoop, hne, hz, hflush]

/-- Running `mainLoop` at a chunk with at least one frame buffered: the aligned
write, then continue with the remainder extended by the chunk. -/
theorem mainLoop_chunk_ge (frame : Nat) (buf c : Chunk)
    (rest : List (Option Chunk)) (h : frame ≤ buf.length) :
    mainLoop frame buf (some c :: rest) =
      (buf.take (buf.length - buf.length % frame) ::
         (mainLoop frame (buf.drop (buf.length - buf.length % frame) ++ c) rest).1,
       (mainLoop frame (buf.drop (buf.length - buf.length % frame) ++ c) rest).2) := by
  simp [mainLoop, h]

/-- Running `mainLoop` at a chunk with less than a frame buffered: no write,
continue with the buffer extended by the chunk. -/
theorem mainLoop_chunk_lt (frame : Nat) (buf c : Chunk)
    (rest : List (Option Chunk)) (h : buf.length < frame) :
    mainLoop frame buf (some c :: rest) = mainLoop frame (buf ++ c) rest := by
  have hne : ¬ frame ≤ buf.length := by omega
  simp [mainLoop, hne]

/-- Length of the largest aligned block taken from the buffer. -/
theorem length_take_aligned (frame : Nat) (buf : Chunk) :
    (buf.take (buf.length - buf.length % frame)).length =
      buf.length - buf.length % frame := by
  simp [List.length_take]

/-- Invariant of the steady-state/drain loop: every write is a whole
multiple of the frame size, and the total written is the byte count
received (buffered plus still pending before the sentinel) rounded down
to a frame multiple. -/
theorem mainLoop_spec (frame : Nat) (hf : 0 < frame) :
    ∀ (q : List (Option Chunk)) (buf : Chunk),
      (∀ w ∈ (mainLoop frame buf q).1, frame ∣ w.length) ∧
      sumLen (mainLoop frame buf q).1 =
        (buf.length + pendingBytes q) - (buf.length + pendingBytes q) % frame := by
  intro q
  induction q with
  | nil =>
    intro buf
    by_cases h : frame ≤ buf.length
    · rw [mainLoop_nil_ge frame buf h]
      refine ⟨?_, ?_⟩
      · intro w hw
        rw [List.mem_singleton] at hw
        subst hw
        rw [length_take_aligned]
        exact dvd_aligned frame buf.length
      · simp [sumLen, pendingBytes, length_take_aligned]
    · have hlt : buf.length < frame := by omega
      rw [mainLoop_nil_lt frame buf hlt]
      have : buf.length % frame = buf.length := Nat.mod_eq_of_lt hlt
      refine ⟨by simp, ?_⟩
      simp [sumLen, pendingBytes]
      omega
  | cons o rest ih =>
    intro buf
    cases o with
    | none =>
      simp only [pendingBytes]
      by_cases h : frame ≤ buf.length
      · rw [mainLoop_sentinel_ge frame hf buf rest h]
        refine ⟨?_, ?_⟩
        · intro w hw
          rw [List.mem_cons] at hw
          rcases hw with hw | hw
          · subst hw
            rw [length_take_aligned]
            exact dvd_aligned frame buf.length
          · by_cases hz : buf.length % frame ≠ 0
            · rw [if_pos hz, List.mem_singleton] at hw
              subst hw
              simp
            · rw [if_neg hz] at hw
              simp at hw
        · by_cases hz : buf.length % frame ≠ 0 <;>
            simp [hz, sumLen, length_take_aligned]
      · have hlt : buf.length < frame := by omega
        rw [mainLoop_sentinel_lt frame hf buf rest hlt]
        have hbm : buf.length % frame = buf.length := Nat.mod_eq_of_lt hlt
        refine ⟨?_, ?_⟩
        · intro w hw
          by_cases hz : buf.length ≠ 0
          · rw [if_pos hz, List.mem_singleton] at hw
            subst hw
            simp
          · rw [if_neg hz] at hw
            simp at hw
        · by_cases hz : buf.length ≠ 0 <;> simp [hz, sumLen] <;> omega
    | some c =>
      simp only [pendingBytes]
      by_cases h : frame ≤ buf.length
      · rw [mainLoop_chunk_ge frame buf c rest h]
        have e4 : (buf.drop (buf.length - buf.length % frame) ++ c).length =
            buf.length % frame + c.length := by
          rw [List.length_append, length_drop_aligned]
        obtain ⟨ihdvd, ihsum⟩ := ih (buf.drop (buf.length - buf.length % frame) ++ c)
        rw [e4] at ihsum
        refine ⟨?_, ?_⟩
        · intro w hw
          rw [List.mem_cons] at hw
          rcases hw with hw | hw
          · subst hw
            rw [length_take_aligned]
            exact dvd_aligned frame buf.length
          · exact ihdvd w hw
        · simp only [sumLen, List.map_cons, List.sum_cons, length_take_aligned]
          have hsum2 : (List.map List.length
              (mainLoop frame (buf.drop (buf.length - buf.length % frame) ++ c) rest).1).sum =
              buf.length % frame + c.length + pendingBytes rest -
                (buf.length % frame + c.length + pendingBytes rest) % frame := by
            simpa [sumLen] using ihsum
          rw [hsum2]
          have hsplit := Nat.mod_add_div buf.length frame
          have hmodeq : (buf.length + (c.length + pendingBytes rest)) % frame =
              (buf.length % frame + c.length + pendingBytes rest) % frame := by
            conv_lhs => rw [show buf.length + (c.length + pendingBytes rest) =
              frame * (buf.length / frame) +
                (buf.length % frame + c.length + pendingBytes rest) by omega]
            rw [Nat.mul_add_mod]
          have hle1 : (buf.length % frame + c.length + pendingBytes rest) % frame ≤
              buf.length % frame + c.length + pendingBytes rest := Nat.mod_le _ _
          have hle2 : buf.length % frame ≤ buf.length := Nat.mod_le _ _
          omega
      · have hlt : buf.length < frame := by omega
        rw [mainLoop_chunk_lt frame buf c rest hlt]
        obtain ⟨ihdvd, ihsum⟩ := ih (buf ++ c)
        rw [List.length_append] at ihsum
        refine ⟨ihdvd, ?_⟩
        rw [← Nat.add_assoc]
        exact ihsum

/-- Unfolding equation of the priming loop. -/
theorem priming_eq (minB : Nat) (buf : Chunk) (q : List (Option Chunk)) :
    priming minB buf q =
      if minB ≤ buf.length then some (buf, q)
      else
        match q with
        | [] => none
        | none :: rest => some (buf, rest)
        | some c :: rest => priming minB (buf ++ c) rest := by
  by_cases h : minB ≤ buf.length
  · cases q with
    | nil => simp [priming, h]
    | cons o rest => cases o <;> simp [priming, h]
  · cases q with
    | nil => simp [priming, h]
    | cons o rest => cases o <;> simp [priming, h]

/-- Bytes pending in a well-formed queue: the chunks before the sentinel. -/
theorem pendingBytes_map (cs : List Chunk) :
    pendingBytes (cs.map some ++ [none]) = sumLen cs := by
  induction cs with
  | nil => simp [pendingBytes, sumLen]
  | cons c cs ih => simp [pendingBytes, ih, sumLen]

/-- On a well-formed queue the priming loop always finishes (it stops
at the threshold or eats the sentinel), conserving the bytes that are
buffered or still pending. -/
theorem priming_total (minB : Nat) :
    ∀ (cs : List Chunk) (buf0 : Chunk),
      ∃ buf rest, priming minB buf0 (cs.map some ++ [none]) = some (buf, rest) ∧
        buf.length + pendingBytes rest = buf0.length + sumLen cs := by
  intro cs
  induction cs with
  | nil =>
    intro buf0
    by_cases h : minB ≤ buf0.length
    · refine ⟨buf0, [none], ?_, by simp [pendingBytes, sumLen]⟩
      rw [priming_eq, if_pos h]
      rfl
    · refine ⟨buf0, [], ?_, by simp [pendingBytes, sumLen]⟩
      rw [priming_eq, if_neg h]
      rfl
  | cons c cs ih =>
    intro buf0
    by_cases h : minB ≤ buf0.length
    · refine ⟨buf0, some c :: (cs.map some ++ [none]), ?_, ?_⟩
      · rw [priming_eq, if_pos h]
        rfl
      · simp [pendingBytes, pendingBytes_map, sumLen]
    · obtain ⟨buf, rest, heq, hsum⟩ := ih (buf0 ++ c)
      refine ⟨buf, rest, ?_, ?_⟩
      · rw [priming_eq, if_neg h]
        simpa using heq
      · rw [hsum, List.length_append]
        simp [sumLen]
        omega

/-- When fewer bytes than the threshold ever arrive, the priming loop
consumes the whole queue, sentinel included. -/
theorem priming_consumes_all (minB : Nat) :
    ∀ (cs : List Chunk) (buf0 : Chunk), buf0.length + sumLen cs < minB →
      ∃ buf, priming minB buf0 (cs.map some ++ [none]) = some (buf, []) ∧
        buf.length = buf0.length + sumLen cs := by
  intro cs
  induction cs with
  | nil =>
    intro buf0 h
    have hlt : ¬ minB ≤ buf0.length := by simp [sumLen] at h; omega
    refine ⟨buf0, ?_, by simp [sumLen]⟩
    rw [priming_eq, if_neg hlt]
    rfl
  | cons c cs ih =>
    intro buf0 h
    have hcs : (buf0 ++ c).length + sumLen cs < minB := by
      rw [List.length_append]
      simp [sumLen] at h ⊢
      omega
    have hlt : ¬ minB ≤ buf0.length := by simp [sumLen] at h; omega
    obtain ⟨buf, heq, hsum⟩ := ih (buf0 ++ c) hcs
    refine ⟨buf, ?_, ?_⟩
    · rw [priming_eq, if_neg hlt]
      simpa using heq
    · rw [hsum, List.length_append]
      simp [sumLen]
      omega

/-! ## Claims -/

/-- C1 (status: code_bug).  The claim says every started synthesis job
pushes the end-of-stream sentinel even when feed/synthesis raises.  In
`server.py` the `audio_queue.put(None)` is inside the `try` (line 243),
after `stream.play`; the `finally` only clears the speaking flag and
releases the semaphore.  Evaluating the worker at a failing engine run
(exception before any chunk): the queue receives no item at all — in
particular no sentinel — while the semaphore is released and the
exception propagates, so a consumer blocked on `queue.get()` is never
unblocked. -/
theorem c1_failure_no_sentinel :
    play_text_to_speech (.failure []) =
      { queueItems := [], speakingAtEnd := false,
        semaphoreReleased := true, raised := true } ∧
    none ∉ (play_text_to_speech (.failure [])).queueItems := by
  constructor
  · rfl
  · simp [play_text_to_speech]

/-- C2 (status: confirmed).  The single-flight gate is
`threading.Semaphore(1)` with `acquire(blocking=False)`: starting from
its initial single permit, any number of acquisition attempts (with no
intervening release) yields at most one success; a failed acquisition
returns `false` immediately with the state untouched (nothing is
queued); and after a release of the exhausted gate, again at most one
subsequent attempt succeeds. -/
theorem c2_single_flight_gate (n : Nat) :
    countTrue (runAttempts 1 n) ≤ 1 ∧
    tryAcquire 0 = (false, 0) ∧
    countTrue (runAttempts (release 0) n) ≤ 1 := by
  refine ⟨countTrue_runAttempts_le n 1, by simp [tryAcquire], ?_⟩
  have h := countTrue_runAttempts_le n (release 0)
  simpa [release] using h

/-- C3 counterexample.  In `async_server.py` the release is in a
`finally` wrapped around `Thread(...).start()` alone, so there is a
legal execution of the `/tts` request — handler and worker events
interleaved, every worker event after the thread start — in which the
permit release happens strictly before the worker's synthesis
completes.  This refutes "the permit is never released before the
worker's synthesis work has completed" for the async variant. -/
theorem c3_release_before_synthesis :
    legalAsyncTrace
      [.acquireOk, .threadStart, .releasePermit, .feedText, .synthDone, .putSentinel]
      = true ∧
    occursBefore .releasePermit .synthDone
      [.acquireOk, .threadStart, .releasePermit, .feedText, .synthDone, .putSentinel]
      = true := by
  decide

/-- C3 amended: in `server.py` the release is in a `finally` around the
worker's entire body — it is the worker's last event and follows
synthesis completion or failure; in `async_server.py` the `finally`
wraps only the `Thread(...).start()` call, so the handler releases the
permit immediately after starting the worker thread, with no synthesis
event of its own before the release. -/
theorem c3_release_placement :
    (∀ o : PlayOutcome, (syncWorkerEvents o).getLast? = some .releasePermit) ∧
    (∀ cs : List Chunk,
      occursBefore .synthDone .releasePermit (syncWorkerEvents (.success cs)) = true) ∧
    (∀ cs : List Chunk,
      occursBefore .synthRaised .releasePermit (syncWorkerEvents (.failure cs)) = true) ∧
    asyncHandlerEvents = [.acquireOk, .threadStart, .releasePermit] ∧
    occursBefore .threadStart .releasePermit asyncHandlerEvents = true ∧
    .synthDone ∉ asyncHandlerEvents := by
  refine ⟨?_, ?_, ?_, rfl, by decide, by decide⟩
  · intro o
    cases o <;> rfl
  · intro cs
    rfl
  · intro cs
    rfl

/-- C4 (status: confirmed).  Under `server.py`'s Reject policy, when
the non-blocking acquisition fails the `/tts` endpoint raises a 503
with a `Retry-After: 10` header, leaves the semaphore untouched and
starts no synthesis worker thread. -/
theorem c4_reject_policy (p : Nat) (engineName : String) (browser : Bool)
    (h : (tryAcquire p).1 = false) :
    tts p engineName browser = (.busyError 503 "10", p, false) := by
  have hp : ¬ 0 < p := by
    intro hlt
    simp [tryAcquire, hlt] at h
  simp [tts, tryAcquire, hp]

/-- C4 witness: a busy gate (zero permits). -/
theorem c4_reject_policy_witness :
    (tryAcquire 0).1 = false ∧
    tts 0 "azure" true = (.busyError 503 "10", 0, false) :=
  ⟨by decide, c4_reject_policy 0 "azure" true (by decide)⟩

/-- C5 counterexample.  The claim says the emitted WAV header's channel
count, sample width and sample rate exactly equal the engine's reported
stream format.  `create_wave_header_for_engine` discards the first two
components of `get_stream_info()` and hardcodes 1 channel and 2-byte
samples: for an engine reporting 2 channels and 4-byte samples at
44100 Hz, the single header emitted declares (1, 2, 44100), which
differs from the report in channels and width. -/
theorem c5_header_fields_hardcoded :
    headerItems (audio_chunk_generator [some [0], none] true "azure" ⟨2, 4, 44100⟩)
      = [⟨1, 2, 44100⟩] ∧
    ¬((create_wave_header_for_engine ⟨2, 4, 44100⟩).numChannels =
        (StreamInfo.mk 2 4 44100).channels ∧
      (create_wave_header_for_engine ⟨2, 4, 44100⟩).sampleWidth =
        (StreamInfo.mk 2 4 44100).sampleWidth) := by
  constructor
  · rfl
  · decide

/-- C5 amended: when header emission is enabled and at least one chunk
is produced, the stream contains exactly one WAV header, positioned
before the first audio byte, declaring the engine's reported sample
rate together with a hardcoded channel count of 1 and sample width of
2 bytes (equal to the engine's report only when it reports mono 16-bit
audio); when header emission is disabled, zero headers are emitted. -/
theorem c5_header_emission (info : StreamInfo) (sendH : Bool) (eng : String)
    (chunks : List Chunk) (hne : chunks ≠ []) :
    ((sendH && !(eng == "elevenlabs")) = true →
      audio_chunk_generator (chunks.map some ++ [none]) sendH eng info =
        StreamItem.header ⟨1, 2, info.sampleRate⟩ :: chunks.map StreamItem.audio) ∧
    ((sendH && !(eng == "elevenlabs")) = false →
      audio_chunk_generator (chunks.map some ++ [none]) sendH eng info =
        chunks.map StreamItem.audio) := by
  constructor
  · intro hc
    rw [audio_chunk_generator, hc, genLoop_spec, if_pos ⟨rfl, hne⟩]
    rfl
  · intro hc
    rw [audio_chunk_generator, hc, genLoop_spec]
    simp

/-- C5 witness: one chunk, browser request, non-elevenlabs engine. -/
theorem c5_header_emission_witness :
    ([[7]] : List Chunk) ≠ [] ∧
    audio_chunk_generator ([[7]].map some ++ [none]) true "azure" ⟨1, 2, 16000⟩ =
      StreamItem.header ⟨1, 2, 16000⟩ :: [[7]].map StreamItem.audio :=
  ⟨by decide,
    (c5_header_emission ⟨1, 2, 16000⟩ true "azure" [[7]] (by decide)).1 (by decide)⟩

/-- C6 (status: confirmed).  For every sequence of N chunks pushed into
the queue followed by the sentinel, both stream generators yield
exactly those N chunks, in push order with no reordering or drops, and
both stop at the first sentinel (anything after it is never read). -/
theorem c6_chunk_preservation (chunks : List Chunk) (junk : List (Option Chunk))
    (sendH : Bool) (eng : String) (info : StreamInfo) :
    audioItems (audio_chunk_generator (chunks.map some ++ [none]) sendH eng info)
      = chunks ∧
    audio_chunk_generator (chunks.map some ++ (none :: junk)) sendH eng info =
      audio_chunk_generator (chunks.map some ++ [none]) sendH eng info ∧
    audioItems (handler_audio_chunk_generator (chunks.map some ++ [none]) sendH info)
      = chunks ∧
    handler_audio_chunk_generator (chunks.map some ++ (none :: junk)) sendH info =
      handler_audio_chunk_generator (chunks.map some ++ [none]) sendH info := by
  refine ⟨?_, ?_, ?_, ?_⟩
  · rw [audio_chunk_generator, genLoop_spec]
    by_cases h : (sendH && !(eng == "elevenlabs")) = true ∧ chunks ≠ []
    · rw [if_pos h]
      simp only [audioItems, List.filterMap_cons, List.filterMap_append]
      simpa [itemHeader, itemChunk, audioItems] using audioItems_map chunks
    · rw [if_neg h, List.nil_append]
      exact audioItems_map chunks
  · rw [audio_chunk_generator, audio_chunk_generator, genLoop_stops]
  · rw [handler_audio_chunk_generator, genLoop_spec]
    by_cases h : sendH = true ∧ chunks ≠ []
    · rw [if_pos h]
      simp only [audioItems, List.filterMap_cons, List.filterMap_append]
      simpa [itemHeader, itemChunk, audioItems] using audioItems_map chunks
    · rw [if_neg h, List.nil_append]
      exact audioItems_map chunks
  · rw [handler_audio_chunk_generator, handler_audio_chunk_generator, genLoop_stops]

/-- C7 counterexample.  With the elevenlabs engine active (its reported
stream info here is 1 channel, 2-byte samples, 22050 Hz),
`async_server.py` still answers `/tts` with content type `audio/wav` —
the handler never consults the engine name — and its generator still
emits a WAV header for a browser request, since its header condition
has no elevenlabs check.  This refutes the claim for the async
variant. -/
theorem c7_async_ignores_encoding :
    (async_tts 1 true).1 = TtsResponse.streaming "audio/wav" ∧
    headerItems (handler_audio_chunk_generator [some [0], none] true ⟨1, 2, 22050⟩)
      = [⟨1, 2, 22050⟩] := by
  constructor
  · rfl
  · rfl

/-- C7 amended: in `server.py`, requests served while the elevenlabs
engine is active get no WAV header and content type `audio/mpeg`; in
`async_server.py`, the content type is always `audio/wav` and the
header decision ignores the engine, so a browser request receives a WAV
header even for a self-encoded engine. -/
theorem c7_encoded_engine_handling :
    (∀ (q : List (Option Chunk)) (sendH : Bool) (info : StreamInfo),
      headerItems (audio_chunk_generator q sendH "elevenlabs" info) = []) ∧
    (∀ (p : Nat) (b : Bool), (tts (p + 1) "elevenlabs" b).1 = .streaming "audio/mpeg") ∧
    (∀ (p : Nat) (b : Bool), (async_tts p b).1 = .streaming "audio/wav") ∧
    (∀ (info : StreamInfo) (c : Chunk) (cs : List Chunk),
      headerItems (handler_audio_chunk_generator ((c :: cs).map some ++ [none]) true info)
        = [⟨1, 2, info.sampleRate⟩]) := by
  refine ⟨?_, ?_, ?_, ?_⟩
  · intro q sendH info
    have : (sendH && !("elevenlabs" == "elevenlabs")) = false := by
      cases sendH <;> decide
    rw [audio_chunk_generator, this]
    exact headerItems_genLoop_false _ q false
  · intro p b
    simp [tts, tryAcquire]
  · intro p b
    rfl
  · intro info c cs
    rw [handler_audio_chunk_generator, genLoop_spec, if_pos ⟨rfl, by simp⟩]
    have h2 := headerItems_map_audio (c :: cs)
    simp only [headerItems] at h2 ⊢
    simp [itemHeader, h2, create_wave_header_for_engine]

/-- C8 (status: confirmed).  For every chunk sequence fed to the client
playback loop (with a positive frame size), every write handed to the
audio sink is a whole multiple of the frame size; the total written is
the received byte count truncated down to the nearest frame multiple,
so the bytes dropped at the final flush number strictly fewer than one
frame. -/
theorem c8_frame_aligned_writes (frame minB : Nat) (chunks : List Chunk)
    (hf : 0 < frame) :
    (∀ w ∈ (play_audio frame minB (chunks.map some ++ [none])).1, frame ∣ w.length) ∧
    sumLen (play_audio frame minB (chunks.map some ++ [none])).1 =
      sumLen chunks - sumLen chunks % frame ∧
    sumLen chunks - sumLen (play_audio frame minB (chunks.map some ++ [none])).1
      < frame := by
  obtain ⟨buf, rest, heq, hsum⟩ := priming_total minB chunks []
  have hplay : play_audio frame minB (chunks.map some ++ [none]) =
      mainLoop frame buf rest := by
    rw [play_audio, heq]
  obtain ⟨hdvd, hmain⟩ := mainLoop_spec frame hf rest buf
  simp only [List.length_nil, Nat.zero_add] at hsum
  rw [hplay, hmain, hsum]
  have hmod : sumLen chunks % frame < frame := Nat.mod_lt _ hf
  have hle : sumLen chunks % frame ≤ sumLen chunks := Nat.mod_le _ _
  exact ⟨hdvd, rfl, by omega⟩

/-- C8 witness: frame size 2 (the client's), two chunks. -/
theorem c8_frame_aligned_writes_witness :
    0 < 2 ∧
    ((∀ w ∈ (play_audio 2 6144 ([[65, 65, 65], [66, 66]].map some ++ [none])).1,
        2 ∣ w.length) ∧
     sumLen (play_audio 2 6144 ([[65, 65, 65], [66, 66]].map some ++ [none])).1 =
       sumLen [[65, 65, 65], [66, 66]] - sumLen [[65, 65, 65], [66, 66]] % 2 ∧
     sumLen [[65, 65, 65], [66, 66]] -
       sumLen (play_audio 2 6144 ([[65, 65, 65], [66, 66]].map some ++ [none])).1 < 2) :=
  ⟨by decide, c8_frame_aligned_writes 2 6144 [[65, 65, 65], [66, 66]] (by decide)⟩

/-- C9 (status: code_bug).  On the scenario chunks
`[b"AAAA", b"BB", None]` with the client's frame size 2 and its
`min_buffer_size` of 6144, the priming loop consumes both chunks *and*
the sentinel (4 and then 6 bytes stay below 6144), so the playback loop
makes one 6-byte write `b"AAAABB"` and then blocks forever on
`chunk_queue.get()` — not the claimed two writes `b"AAAA"`, `b"BB"`
followed by an empty flush and a stop.  With a priming threshold the
scenario can satisfy (e.g. 1), the code produces exactly the claimed
writes and terminates, confirming the claim describes the intended
drain behaviour that the 6144-byte priming breaks. -/
theorem c9_scenario_evaluation :
    play_audio 2 6144 [some [65, 65, 65, 65], some [66, 66], none] =
      ([[65, 65, 65, 65, 66, 66]], .blocked) ∧
    play_audio 2 1 [some [65, 65, 65, 65], some [66, 66], none] =
      ([[65, 65, 65, 65], [66, 66]], .terminated) := by
  constructor
  · rfl
  · rfl

/-- C10 (status: confirmed).  Whenever the sentinel is what ends the
priming loop — i.e. the chunks total fewer than `min_buffer_size =
6144` bytes — the playback loop writes the frame-aligned prefix of the
buffered bytes and then calls `get()` on a queue that will never
receive another item (the only sentinel was already consumed during
priming), so it never terminates. -/
theorem c10_sentinel_eaten_during_priming (chunks : List Chunk)
    (h : sumLen chunks < 6144) :
    (play_audio 2 6144 (chunks.map some ++ [none])).2 = .blocked ∧
    sumLen (play_audio 2 6144 (chunks.map some ++ [none])).1 =
      sumLen chunks - sumLen chunks % 2 := by
  obtain ⟨buf, heq, hlen⟩ := priming_consumes_all 6144 chunks [] (by simpa using h)
  have hplay : play_audio 2 6144 (chunks.map some ++ [none]) =
      mainLoop 2 buf [] := by
    rw [play_audio, heq]
  obtain ⟨hdvd, hmain⟩ := mainLoop_spec 2 (by decide) [] buf
  simp only [List.length_nil, Nat.zero_add] at hlen
  rw [hplay]
  constructor
  · by_cases hb : 2 ≤ buf.length
    · rw [mainLoop_nil_ge 2 buf hb]
    · rw [mainLoop_nil_lt 2 buf (by omega)]
  · rw [hmain]
    simp only [pendingBytes, hlen]
    omega

/-- C10 witness: three bytes arrive, well under the 6144 threshold. -/
theorem c10_sentinel_eaten_witness :
    sumLen [[1, 2, 3]] < 6144 ∧
    ((play_audio 2 6144 ([[1, 2, 3]].map some ++ [none])).2 = .blocked ∧
     sumLen (play_audio 2 6144 ([[1, 2, 3]].map some ++ [none])).1 =
       sumLen [[1, 2, 3]] - sumLen [[1, 2, 3]] % 2) :=
  ⟨by decide, c10_sentinel_eaten_during_priming [[1, 2, 3]] (by decide)⟩

end RealtimeTTS
